import Mathlib

/-!
Shallow embedding of the teaching-blockchain ledger engine
(`Transaction`, `Block`, `Blockchain` classes of the core library).

Modelling conventions:
* The two cryptographic primitives (`crypto.SHA256`, `crypto.HmacSHA256`)
  are opaque to the source code, so every definition that needs them takes
  a `Crypto` record of plain functions as a parameter.
* JavaScript nondeterminism (`uuidv4()`, `Date.now()`, `Math.random()`
  inside `generateAddress`) is threaded as explicit parameters: each call
  site receives the fresh value it would have drawn.
* JavaScript numbers are modelled as `Int` (all amounts, timestamps and
  durations in the repository are integral); the two genuinely fractional
  computations (`averageMiningTime / targetBlockTime` and `hashRate`) are
  carried out in `ℚ`.
* Thrown exceptions become `Except Err` results; the unbounded
  proof-of-work loop takes a fuel parameter and `Err.outOfFuel` marks
  non-termination within the supplied fuel.
* `JSON.stringify` on the record types at hand serializes the fields in
  insertion order; `stringifyTx` / `stringifyBlock` reproduce that layout
  (string values in this development contain no characters that JSON
  escapes).
-/

/-- The two hash primitives the library imports from `crypto-js`. -/
structure Crypto where
  sha : String → String
  hmac : String → String → String

/-- JavaScript falsiness of a nullable string (`!x` is true for `null`,
`undefined` and the empty string). -/
def jsFalsyStr : Option String → Bool
  | none => true
  | some s => s = ""

/-- JavaScript string coercion of a nullable string (`null + s` yields
`"null" + s`). -/
def jsStr : Option String → String
  | none => "null"
  | some s => s

/-- JavaScript truthiness of an optional recorded mining duration
(`!b.miningTime` is true when the field is absent or `0`). -/
def jsTruthyTime : Option Int → Bool
  | none => false
  | some t => t ≠ 0

/-- JavaScript `config.x || d`: the stored default `d` replaces an absent
or falsy (zero) configuration value `x`. -/
def jsOrInt : Option Int → Int → Int
  | none, d => d
  | some x, d => if x = 0 then d else x

/-- A transfer record; field for field the `Transaction` class
(`id`, `from`, `to`, `amount`, `type`, `timestamp`, `signature`). -/
structure Transaction where
  id : String
  «from» : Option String
  «to» : Option String
  amount : Int
  type : String
  timestamp : Int
  signature : Option String
deriving DecidableEq

/-- The `Transaction` constructor: `new Transaction(from, to, amount, type)`,
with the fresh `uuidv4()` and `Date.now()` passed explicitly. -/
def Transaction.make (fr toA : Option String) (amount : Int) (type : String)
    (freshId : String) (now : Int) : Transaction :=
  { id := freshId, «from» := fr, «to» := toA, amount := amount, type := type,
    timestamp := now, signature := none }

/-- `Transaction.calculateHash()`:
`SHA256(this.from + this.to + this.amount + this.timestamp + this.type)`. -/
def Transaction.calculateHash (C : Crypto) (t : Transaction) : String :=
  C.sha (jsStr t.«from» ++ jsStr t.«to» ++ toString t.amount ++
    toString t.timestamp ++ t.type)

/-- `Transaction.signTransaction(signingKey)`: stores
`HmacSHA256(this.calculateHash(), signingKey)` as the signature. -/
def Transaction.signTransaction (C : Crypto) (t : Transaction)
    (signingKey : String) : Transaction :=
  { t with signature := some (C.hmac (t.calculateHash C) signingKey) }

/-- The error kinds thrown (or, for fuel, the non-termination marker). -/
inductive Err where
  | missingAddress
  | unknownAccount
  | insufficientBalance
  | missingSignature
  | invalidMinerAddress
  | faucetIneligible (reason : String)
  | faucetEmpty
  | outOfFuel
deriving DecidableEq

/-- `Transaction.isValid()`: system transactions (`from === null`) are
valid; otherwise a missing/empty signature throws, and the verdict is
whether the stored signature equals the HMAC of the fingerprint keyed by
the sender address. -/
def Transaction.isValid (C : Crypto) (t : Transaction) : Except Err Bool :=
  match t.«from» with
  | none => .ok true
  | some fr =>
    match t.signature with
    | none => .error .missingSignature
    | some s =>
      if s = "" then .error .missingSignature
      else .ok (s = C.hmac (t.calculateHash C) fr)

/-- JSON rendering of a string value. -/
def jsonStr (s : String) : String := "\"" ++ s ++ "\""

/-- JSON rendering of a nullable string value. -/
def jsonOptStr : Option String → String
  | none => "null"
  | some s => jsonStr s

/-- `JSON.stringify` of one transaction (fields in insertion order). -/
def stringifyTx (t : Transaction) : String :=
  "\x7b\"id\":" ++ jsonStr t.id ++
  ",\"from\":" ++ jsonOptStr t.«from» ++
  ",\"to\":" ++ jsonOptStr t.«to» ++
  ",\"amount\":" ++ toString t.amount ++
  ",\"type\":" ++ jsonStr t.type ++
  ",\"timestamp\":" ++ toString t.timestamp ++
  ",\"signature\":" ++ jsonOptStr t.signature ++ "\x7d"

/-- `JSON.stringify` of a transaction array. -/
def stringifyTxs (l : List Transaction) : String :=
  "[" ++ String.intercalate "," (l.map stringifyTx) ++ "]"

/-- A block; field for field the `Block` class, plus the two statistics
fields (`miningTime`, `hashRate`) that `minePendingTransactions` attaches
after mining (absent — `none` — until then). -/
structure Block where
  timestamp : Int
  transactions : List Transaction
  previousHash : String
  hash : String
  nonce : Nat
  miner : Option String
  reward : Int
  miningTime : Option Int
  hashRate : Option ℚ
deriving DecidableEq

/-- `Block.calculateHash()`:
`SHA256(previousHash + timestamp + JSON.stringify(transactions) + nonce + (miner || ''))`. -/
def Block.calculateHash (C : Crypto) (b : Block) : String :=
  C.sha (b.previousHash ++ toString b.timestamp ++
    stringifyTxs b.transactions ++ toString b.nonce ++ (b.miner.getD ""))

/-- The `Block` constructor. In the JS constructor the line
`this.hash = this.calculateHash()` runs before `this.nonce` and
`this.miner` are assigned, so the digest input carries the string
`"undefined"` where the nonce would go and an empty string for the
miner. -/
def Block.make (C : Crypto) (timestamp : Int) (transactions : List Transaction)
    (previousHash : String) : Block :=
  { timestamp := timestamp, transactions := transactions,
    previousHash := previousHash,
    hash := C.sha (previousHash ++ toString timestamp ++
      stringifyTxs transactions ++ "undefined"),
    nonce := 0, miner := none, reward := 0,
    miningTime := none, hashRate := none }

/-- `JSON.stringify` of a block (fields in insertion order; the
statistics fields are rendered only once present, as in JS). -/
def stringifyBlock (b : Block) : String :=
  "\x7b\"timestamp\":" ++ toString b.timestamp ++
  ",\"transactions\":" ++ stringifyTxs b.transactions ++
  ",\"previousHash\":" ++ jsonStr b.previousHash ++
  ",\"hash\":" ++ jsonStr b.hash ++
  ",\"nonce\":" ++ toString b.nonce ++
  ",\"miner\":" ++ jsonOptStr b.miner ++
  ",\"reward\":" ++ toString b.reward ++
  (match b.miningTime with
   | none => ""
   | some mt => ",\"miningTime\":" ++ toString mt) ++
  (match b.hashRate with
   | none => ""
   | some hr => ",\"hashRate\":" ++ toString hr) ++ "\x7d"

/-- The proof-of-work target `Array(difficulty + 1).join("0")`:
`difficulty` zero characters. -/
def mineTarget (difficulty : Nat) : String :=
  String.mk (List.replicate difficulty '0')

/-- One iteration of the mining loop body: `this.nonce++;
this.hash = this.calculateHash();`. -/
def Block.stepNonce (C : Crypto) (b : Block) : Block :=
  let b1 : Block := { b with nonce := b.nonce + 1 }
  { b1 with hash := b1.calculateHash C }

/-- The `while` loop of `mineBlock`, with explicit fuel: keep stepping the
nonce until `hash.substring(0, difficulty)` equals the target. -/
def mineLoop (C : Crypto) : Nat → Nat → Block → Option Block
  | 0, _, _ => none
  | fuel + 1, difficulty, b =>
    if b.hash.take difficulty = mineTarget difficulty then some b
    else mineLoop C fuel difficulty (b.stepNonce C)

/-- `Block.mineBlock(difficulty, minerAddress)`: run the search loop, then
set `miner` and `reward = 10` — without recomputing `hash`. -/
def Block.mineBlock (C : Crypto) (fuel difficulty : Nat)
    (minerAddress : String) (b : Block) : Option Block :=
  (mineLoop C fuel difficulty b).map fun b1 =>
    { b1 with miner := some minerAddress, reward := 10 }

/-- `Block.hasValidTransactions()`: every contained transaction must be
valid; a thrown `MissingSignature` propagates. -/
def hasValidTransactions (C : Crypto) : List Transaction → Except Err Bool
  | [] => .ok true
  | t :: ts =>
    match t.isValid C with
    | .error e => .error e
    | .ok false => .ok false
    | .ok true => hasValidTransactions C ts

/-- Placeholder for JavaScript `undefined` where an out-of-range chain
index would be read (never reached on chains seeded with a genesis
block). -/
def dummyBlock : Block :=
  { timestamp := 0, transactions := [], previousHash := "", hash := "",
    nonce := 0, miner := none, reward := 0, miningTime := none,
    hashRate := none }

/-- An entry of the `accounts` map (`createAccount` stores `address`,
`alias`, a stored-but-never-updated `balance`, a transaction list and
`createdAt`). The list below keeps JS `Map` insertion order. -/
structure Account where
  address : String
  «alias» : Option String
  balance : Int
  transactions : List Transaction
  createdAt : Int
deriving DecidableEq

/-- A weighted miner record of the effective (second) `addMiner`. -/
structure Miner where
  address : String
  «alias» : Option String
  hashPower : ℚ
  isActive : Bool
  joinedAt : Int
  blocksMined : Nat
  totalRewards : Int
deriving DecidableEq

/-- The `miningStats` aggregate. -/
structure MiningStats where
  totalBlocksMined : Nat
  totalRewardsPaid : Int
  averageMiningTime : ℚ
  networkHashRate : ℚ
deriving DecidableEq

/-- The ledger state: every mutable field of the `Blockchain` class that
the modelled operations read or write. `autoMineInterval` is `undefined`
until the effective `startAutoMining` assigns it, hence `Option`. The
`setInterval` timer handle is not state in this model (§9 of the spec:
ticks are driven explicitly). -/
structure Blockchain where
  chain : List Block
  difficulty : Nat
  pendingTransactions : List Transaction
  miningReward : Int
  accounts : List Account
  targetBlockTime : Int
  difficultyAdjustmentInterval : Nat
  faucetAmount : Int
  faucetCooldown : Int
  faucetHistory : List (String × Int)
  faucetAddress : String
  autoMining : Bool
  miners : List Miner
  minTransactionsToMine : Int
  maxBlockTime : Int
  autoMineInterval : Option Int
  lastBlockTime : Int
  miningStats : MiningStats
deriving DecidableEq

/-- `Blockchain.createGenesisBlock()`: a block at the fixed timestamp
`Date.parse("2024-01-01") = 1704067200000` over the single transaction
`new Transaction(null, 'genesis', 1000000, 'genesis')` with previous hash
`"0"`. The transaction's `uuidv4()` id and `Date.now()` timestamp are the
explicit freshness parameters. -/
def Blockchain.createGenesisBlock (C : Crypto) (freshTxId : String)
    (freshTxNow : Int) : Block :=
  Block.make C 1704067200000
    [Transaction.make none (some "genesis") 1000000 "genesis" freshTxId freshTxNow]
    "0"

/-- The `Blockchain` constructor with its literal configuration
constants. -/
def Blockchain.init (C : Crypto) (genesisTxId : String) (genesisTxNow : Int)
    (now : Int) : Blockchain :=
  { chain := [Blockchain.createGenesisBlock C genesisTxId genesisTxNow],
    difficulty := 2,
    pendingTransactions := [],
    miningReward := 10,
    accounts := [],
    targetBlockTime := 10000,
    difficultyAdjustmentInterval := 5,
    faucetAmount := 100,
    faucetCooldown := 24 * 60 * 60 * 1000,
    faucetHistory := [],
    faucetAddress := "genesis",
    autoMining := false,
    miners := [],
    minTransactionsToMine := 1,
    maxBlockTime := 30000,
    autoMineInterval := none,
    lastBlockTime := now,
    miningStats :=
      { totalBlocksMined := 0, totalRewardsPaid := 0,
        averageMiningTime := 0, networkHashRate := 0 } }

/-- `getLatestBlock()`: `this.chain[this.chain.length - 1]`. -/
def Blockchain.getLatestBlock (bc : Blockchain) : Block :=
  bc.chain.getD (bc.chain.length - 1) dummyBlock

/-- `this.accounts.has(address)` (the map is keyed by address). -/
def Blockchain.hasAccount (bc : Blockchain) (address : String) : Bool :=
  bc.accounts.any (fun a => a.address = address)

/-- `findAccount(aliasOrAddress)`: direct address lookup first, then the
first account (in insertion order) whose alias matches. -/
def Blockchain.findAccount (bc : Blockchain) (aliasOrAddress : String) :
    Option Account :=
  match bc.accounts.find? (fun a => a.address = aliasOrAddress) with
  | some a => some a
  | none => bc.accounts.find? (fun a => a.«alias» = some aliasOrAddress)

/-- `resolveAddress(aliasOrAddress)`: the found account's address, or the
input unchanged when no account matches. -/
def Blockchain.resolveAddress (bc : Blockchain) (aliasOrAddress : String) :
    String :=
  match bc.findAccount aliasOrAddress with
  | some a => a.address
  | none => aliasOrAddress

/-- The inner per-block step of `getAccountBalance`: subtract outgoing
amounts, add incoming amounts, then credit the block reward when this
address mined the block. -/
def balanceStep (address : String) (balance : Int) (block : Block) : Int :=
  let balance := block.transactions.foldl
    (fun bal tr =>
      let bal := if tr.«from» = some address then bal - tr.amount else bal
      if tr.«to» = some address then bal + tr.amount else bal)
    balance
  if block.miner = some address then balance + block.reward else balance

/-- `getAccountBalance(aliasOrAddress)`: resolve, return `0` for an
unregistered address, otherwise fold the whole chain. -/
def Blockchain.getAccountBalance (bc : Blockchain) (aliasOrAddress : String) :
    Int :=
  let address := bc.resolveAddress aliasOrAddress
  if ¬ bc.hasAccount address then 0
  else bc.chain.foldl (balanceStep address) 0

/-- Result record of `createAccount`. -/
structure CreateResult where
  success : Bool
  address : Option String
  «alias» : Option String
  error : Option String
deriving DecidableEq

/-- `createAccount(aliasOrAddress, isAlias)`. When `isAlias` is true the
real address comes from `generateAddress` (random — passed explicitly as
`generatedAddress`); only a collision on the *address* key is rejected. -/
def Blockchain.createAccount (bc : Blockchain) (aliasOrAddress : String)
    (isAlias : Bool) (generatedAddress : String) (now : Int) :
    CreateResult × Blockchain :=
  let address := if isAlias then generatedAddress else aliasOrAddress
  let aliasV := if isAlias then some aliasOrAddress else none
  if ¬ bc.hasAccount address then
    ({ success := true, address := some address, «alias» := aliasV,
       error := none },
     { bc with accounts := bc.accounts ++
        [{ address := address, «alias» := aliasV, balance := 0,
           transactions := [], createdAt := now }] })
  else
    ({ success := false, address := none, «alias» := none,
       error := some "Account already exists" }, bc)

/-- `createTransaction(transaction)`: missing-endpoint check, resolution,
registration check, chain-derived balance check; on success the
transaction's endpoints are rewritten to resolved addresses, it is signed
with the sender's own (resolved) address as the HMAC key, and it is
appended to the pending pool. All throws happen before any mutation. -/
def Blockchain.createTransaction (C : Crypto) (bc : Blockchain)
    (tx : Transaction) : Except Err Blockchain :=
  if jsFalsyStr tx.«from» || jsFalsyStr tx.«to» then .error .missingAddress
  else
    let fromAddress := bc.resolveAddress (jsStr tx.«from»)
    let toAddress := bc.resolveAddress (jsStr tx.«to»)
    if ¬ bc.hasAccount fromAddress || ¬ bc.hasAccount toAddress then
      .error .unknownAccount
    else
      let balance := bc.getAccountBalance (jsStr tx.«from»)
      if balance < tx.amount then .error .insufficientBalance
      else
        let tx1 : Transaction := { tx with «from» := some fromAddress,
                                           «to» := some toAddress }
        let tx2 := tx1.signTransaction C fromAddress
        .ok { bc with pendingTransactions := bc.pendingTransactions ++ [tx2] }

/-- The accumulation loop of `adjustDifficulty`: running total of truthy
recorded mining times and their count. -/
def timeAcc (window : List Block) : Int × Nat :=
  window.foldl
    (fun p b =>
      if jsTruthyTime b.miningTime then (p.1 + b.miningTime.getD 0, p.2 + 1)
      else p)
    (0, 0)

/-- `adjustDifficulty()`: no-op for short chains; no-op when the block at
`chain[length - interval]` or the last block lacks a truthy `miningTime`;
otherwise compare the window's average mining time against the target and
bump the difficulty by one step. -/
def Blockchain.adjustDifficulty (bc : Blockchain) : Blockchain :=
  if bc.chain.length < bc.difficultyAdjustmentInterval then bc
  else
    let lastBlock := bc.chain.getD (bc.chain.length - 1) dummyBlock
    let adjustmentBlock :=
      bc.chain.getD (bc.chain.length - bc.difficultyAdjustmentInterval)
        dummyBlock
    if ¬ jsTruthyTime adjustmentBlock.miningTime ||
       ¬ jsTruthyTime lastBlock.miningTime then bc
    else
      let window :=
        bc.chain.drop (bc.chain.length - bc.difficultyAdjustmentInterval)
      let tc := timeAcc window
      if tc.2 = 0 then bc
      else
        let averageMiningTime : ℚ := (tc.1 : ℚ) / (tc.2 : ℚ)
        let timeQuot : ℚ := averageMiningTime / (bc.targetBlockTime : ℚ)
        if timeQuot < 1/2 then { bc with difficulty := bc.difficulty + 1 }
        else if timeQuot > 2 then
          { bc with difficulty := max 1 (bc.difficulty - 1) }
        else bc

/-- `minePendingTransactions(miningRewardAddress)`: resolve and check the
miner, adjust difficulty, build the candidate block from the whole pending
pool and the tip's hash, mine it (fuel-bounded here), attach the timing
statistics (`duration` is the observed wall-clock mining time), append the
block and clear the pool. -/
def Blockchain.minePendingTransactions (C : Crypto) (fuel : Nat)
    (now duration : Int) (bc : Blockchain) (miningRewardAddress : String) :
    Except Err Blockchain :=
  let resolvedAddress := bc.resolveAddress miningRewardAddress
  if ¬ bc.hasAccount resolvedAddress then .error .invalidMinerAddress
  else
    let bc1 := bc.adjustDifficulty
    let block := Block.make C now bc1.pendingTransactions bc1.getLatestBlock.hash
    match block.mineBlock C fuel bc1.difficulty resolvedAddress with
    | none => .error .outOfFuel
    | some mined =>
      let mined := { mined with
        miningTime := some duration,
        hashRate := some ((mined.nonce : ℚ) / ((duration : ℚ) / 1000)) }
      .ok { bc1 with chain := bc1.chain ++ [mined], pendingTransactions := [] }

/-- Result record of `canUseFaucet`. -/
structure CanUse where
  canUse : Bool
  reason : String
  remainingTime : Option Int
deriving DecidableEq

/-- Association-list read of the `faucetHistory` map. -/
def historyGet (h : List (String × Int)) (k : String) : Option Int :=
  (h.find? (fun p => p.1 = k)).map (fun p => p.2)

/-- Association-list write of the `faucetHistory` map (JS `Map.set`:
overwrite in place or append a new entry). -/
def historySet (h : List (String × Int)) (k : String) (v : Int) :
    List (String × Int) :=
  if h.any (fun p => p.1 = k) then
    h.map (fun p => if p.1 = k then (k, v) else p)
  else h ++ [(k, v)]

/-- `canUseFaucet(aliasOrAddress)`: unregistered accounts are refused; a
missing (or JS-falsy `0`) last-use timestamp means first-time use; an
elapsed cooldown re-enables the faucet; otherwise report the remaining
time, rounded up to whole hours in the message. -/
def Blockchain.canUseFaucet (now : Int) (bc : Blockchain)
    (aliasOrAddress : String) : CanUse :=
  let address := bc.resolveAddress aliasOrAddress
  if ¬ bc.hasAccount address then
    { canUse := false, reason := "Account not found", remainingTime := none }
  else
    match historyGet bc.faucetHistory address with
    | none => { canUse := true, reason := "First time use", remainingTime := none }
    | some lastUsedTime =>
      if lastUsedTime = 0 then
        { canUse := true, reason := "First time use", remainingTime := none }
      else
        let timeSinceLastUse := now - lastUsedTime
        if timeSinceLastUse ≥ bc.faucetCooldown then
          { canUse := true, reason := "Cooldown expired", remainingTime := none }
        else
          let remainingTime := bc.faucetCooldown - timeSinceLastUse
          let hours : Int := ⌈(remainingTime : ℚ) / ((60 * 60 * 1000 : Int) : ℚ)⌉
          { canUse := false,
            reason := "Please wait " ++ toString hours ++
              " hours before using faucet again",
            remainingTime := some remainingTime }

/-- Success record of `useFaucet`. -/
structure FaucetOk where
  amount : Int
  transactionId : String
  recipient : String
deriving DecidableEq

/-- `useFaucet(aliasOrAddress)`: re-check eligibility (throwing its reason
on refusal), then check the *derived balance of the reserve address*
against the dispense amount, build the faucet transaction, record the
claim time and enqueue the transaction into the pending pool. -/
def Blockchain.useFaucet (now : Int) (freshTxId : String) (freshTxNow : Int)
    (bc : Blockchain) (aliasOrAddress : String) :
    Except Err (Blockchain × FaucetOk) :=
  let address := bc.resolveAddress aliasOrAddress
  let canUseResult := Blockchain.canUseFaucet now bc aliasOrAddress
  if ¬ canUseResult.canUse then .error (.faucetIneligible canUseResult.reason)
  else
    let faucetBalance := bc.getAccountBalance bc.faucetAddress
    if faucetBalance < bc.faucetAmount then .error .faucetEmpty
    else
      let faucetTransaction := Transaction.make (some bc.faucetAddress)
        (some address) bc.faucetAmount "faucet" freshTxId freshTxNow
      .ok
        ({ bc with
            faucetHistory := historySet bc.faucetHistory address now,
            pendingTransactions := bc.pendingTransactions ++ [faucetTransaction] },
         { amount := bc.faucetAmount, transactionId := freshTxId,
           recipient := address })

/-- The loop of `isChainValid` from index 1 on: previous-hash linkage,
transaction validity (a thrown `MissingSignature` propagates), and the
stored hash against its recomputation. -/
def chainValidFrom (C : Crypto) : Block → List Block → Except Err Bool
  | _, [] => .ok true
  | prev, cur :: rest =>
    if prev.hash ≠ cur.previousHash then .ok false
    else
      match hasValidTransactions C cur.transactions with
      | .error e => .error e
      | .ok false => .ok false
      | .ok true =>
        if cur.hash ≠ cur.calculateHash C then .ok false
        else chainValidFrom C cur rest

/-- `isChainValid()`: serialize a freshly rebuilt genesis block (whose
transaction draws a *new* `uuidv4()` id and `Date.now()` timestamp —
the two freshness parameters) against `chain[0]`, then walk the rest of
the chain. -/
def Blockchain.isChainValid (C : Crypto) (freshTxId : String)
    (freshTxNow : Int) (bc : Blockchain) : Except Err Bool :=
  let realGenesis := Blockchain.createGenesisBlock C freshTxId freshTxNow
  if stringifyBlock realGenesis ≠ stringifyBlock (bc.chain.getD 0 dummyBlock) then
    .ok false
  else
    match bc.chain with
    | [] => .ok true
    | g :: rest => chainValidFrom C g rest

/-- The auto-mining configuration object passed to the effective
`startAutoMining(config)` (absent fields modelled as `none`). -/
structure AMConfig where
  autoMineInterval : Option Int
  minTransactionsToMine : Option Int
  maxBlockTime : Option Int
deriving DecidableEq

/-- The success payload of the effective `startAutoMining`. -/
structure StartOk where
  autoMineInterval : Int
  minTransactionsToMine : Int
  maxBlockTime : Int
  totalMiners : Nat
deriving DecidableEq

/-- The result of the effective `startAutoMining`. -/
inductive StartResult where
  | ok (config : StartOk)
  | failure (error : String)
deriving DecidableEq

/-- The *effective* `startAutoMining(config)` — the class body defines the
method twice and the later definition wins. It refuses only when auto
mining is already running; it performs **no** miner-registration check.
Otherwise it stores the three configuration values (with `||` defaults)
and switches `autoMining` on. The `setInterval` side effect is the
explicitly driven tick of §9. -/
def Blockchain.startAutoMining (bc : Blockchain) (config : AMConfig) :
    StartResult × Blockchain :=
  if bc.autoMining then (.failure "Auto mining is already running", bc)
  else
    let interval := jsOrInt config.autoMineInterval 10000
    let minTx := jsOrInt config.minTransactionsToMine 1
    let maxTime := jsOrInt config.maxBlockTime 30000
    (.ok { autoMineInterval := interval, minTransactionsToMine := minTx,
           maxBlockTime := maxTime, totalMiners := bc.miners.length },
     { bc with autoMineInterval := some interval,
               minTransactionsToMine := minTx,
               maxBlockTime := maxTime,
               autoMining := true })

/-! ### Claim C1: genesis determinism of `isChainValid` -/

/-- A concrete crypto instantiation (injective tag for the digest). -/
def c1Crypto : Crypto :=
  { sha := fun s => "h" ++ s, hmac := fun m k => "m" ++ k ++ m }

/-- A freshly constructed ledger whose genesis transaction drew the
uuid `"uuid-1"` and creation time `11`. -/
def c1Ledger : Blockchain := Blockchain.init c1Crypto "uuid-1" 11 0

set_option maxRecDepth 100000 in
/-- C1: on a freshly constructed ledger with no operations performed,
`isChainValid()` returns `false`, not `true`: the genesis block it
rebuilds for comparison embeds a *fresh* `uuidv4()` id (here `"uuid-2"`,
necessarily different from the stored `"uuid-1"`) and a fresh `Date.now()`
timestamp inside its transaction, so the serialized comparison with
`chain[0]` fails. The second conjunct isolates the cause: replaying the
identical id and timestamp would make the whole check succeed. -/
theorem C1_fresh_ledger_isChainValid_false :
    Blockchain.isChainValid c1Crypto "uuid-2" 22 c1Ledger = .ok false ∧
    Blockchain.isChainValid c1Crypto "uuid-1" 11 c1Ledger = .ok true := by
  constructor <;> rfl

/-! ### Claim C2: the hash stored by `mineBlock` is stale -/

/-- A crypto instantiation tailored so that mining the block below at
difficulty 1 succeeds at nonce 1: only the digest input reached at
nonce 1 (namely `"p0[]1"`) hashes to a string with a leading zero. The
digest is injective: `"0"` differs from every `"1" ++ s`, and
`s ↦ "1" ++ s` is injective. -/
def c2Crypto : Crypto :=
  { sha := fun s => if s = "p0[]1" then "0" else "1" ++ s,
    hmac := fun m k => "m" ++ k ++ m }

/-- A fresh block over an empty transaction list. -/
def c2Block : Block := Block.make c2Crypto 0 [] "p"

/-- The result of `mineBlock(1, "m")` on that block. -/
def c2Mined : Option Block := Block.mineBlock c2Crypto 5 1 "m" c2Block

/-- C2: after `mine(1, "m")` returns, the hash's first character is `'0'`,
`miner` is set to `"m"` and `reward` to the fixed constant `10` — but the
stored hash does **not** equal `calculateHash()` recomputed over the
block's current fields: the final hash was computed while `miner` was
still `null`, and setting `miner` afterwards leaves it stale. -/
theorem C2_mined_block_hash_is_stale :
    c2Mined = some ((c2Mined.getD dummyBlock)) ∧
    (c2Mined.getD dummyBlock).hash.take 1 = "0" ∧
    (c2Mined.getD dummyBlock).miner = some "m" ∧
    (c2Mined.getD dummyBlock).reward = 10 ∧
    (c2Mined.getD dummyBlock).hash ≠
      (c2Mined.getD dummyBlock).calculateHash c2Crypto := by
  refine ⟨rfl, rfl, rfl, rfl, ?_⟩
  decide

/-! ### Claim C3: the faucet is unusable on a fresh ledger -/

/-- A fresh ledger followed by the registration of `alice`. -/
def c3Ledger : Blockchain :=
  (Blockchain.init c1Crypto "uuid-g" 3 0).createAccount "alice" true "0xaaa" 5
    |>.2

/-- The same ledger with the reserve address `'genesis'` additionally
registered as a literal-address account. -/
def c3LedgerReg : Blockchain :=
  c3Ledger.createAccount "genesis" false "" 6 |>.2

/-- C3: on a freshly constructed ledger with `alice` registered and no
prior claim, `claim('alice')` does *not* succeed: it throws
`Faucet is empty`. The faucet reserve address `'genesis'` is not a
registered account, so `getAccountBalance('genesis')` short-circuits to
`0` even though the chain credits it `1000000` — the last conjunct shows
that merely registering the literal address `'genesis'` makes the same
derived balance `1000000`. -/
theorem C3_fresh_faucet_claim_throws_faucetEmpty :
    Blockchain.useFaucet 50 "uuid-f" 50 c3Ledger "alice" = .error .faucetEmpty ∧
    c3Ledger.getAccountBalance "genesis" = 0 ∧
    c3LedgerReg.getAccountBalance "genesis" = 1000000 := by
  refine ⟨rfl, rfl, rfl⟩

/-! ### Claim C4: `submitTransaction` error cases and success effect -/

/-- C4: full case analysis of `createTransaction` (the engine's
`submitTransaction`). A JS-falsy endpoint throws `MissingAddress`; an
unregistered resolved endpoint throws `UnknownAccount`; a chain-derived
sender balance below `amount` throws `InsufficientBalance` — each before
any mutation, so a failing call returns no new state and the pending pool
and all other ledger state are exactly as before. On success the
transaction's endpoints are rewritten to the resolved addresses, it is
signed with the sender's own address as the HMAC key, and the pending
pool grows by exactly that transaction. -/
theorem C4_submitTransaction_characterization (C : Crypto) (bc : Blockchain)
    (tx : Transaction) :
    ((jsFalsyStr tx.«from» || jsFalsyStr tx.«to») = true →
      bc.createTransaction C tx = .error .missingAddress) ∧
    ((jsFalsyStr tx.«from» || jsFalsyStr tx.«to») = false →
      (bc.hasAccount (bc.resolveAddress (jsStr tx.«from»)) = false ∨
       bc.hasAccount (bc.resolveAddress (jsStr tx.«to»)) = false) →
      bc.createTransaction C tx = .error .unknownAccount) ∧
    ((jsFalsyStr tx.«from» || jsFalsyStr tx.«to») = false →
      bc.hasAccount (bc.resolveAddress (jsStr tx.«from»)) = true →
      bc.hasAccount (bc.resolveAddress (jsStr tx.«to»)) = true →
      bc.getAccountBalance (jsStr tx.«from») < tx.amount →
      bc.createTransaction C tx = .error .insufficientBalance) ∧
    ((jsFalsyStr tx.«from» || jsFalsyStr tx.«to») = false →
      bc.hasAccount (bc.resolveAddress (jsStr tx.«from»)) = true →
      bc.hasAccount (bc.resolveAddress (jsStr tx.«to»)) = true →
      ¬ bc.getAccountBalance (jsStr tx.«from») < tx.amount →
      bc.createTransaction C tx = .ok { bc with
        pendingTransactions := bc.pendingTransactions ++
          [Transaction.signTransaction C
            { tx with «from» := some (bc.resolveAddress (jsStr tx.«from»)),
                      «to» := some (bc.resolveAddress (jsStr tx.«to»)) }
            (bc.resolveAddress (jsStr tx.«from»))] }) := by
  refine ⟨?_, ?_, ?_, ?_⟩
  · intro h
    simp [Blockchain.createTransaction, h]
  · intro h1 h2
    rcases h2 with h2 | h2 <;>
      simp [Blockchain.createTransaction, h1, h2]
  · intro h1 h2 h3 h4
    simp [Blockchain.createTransaction, h1, h2, h3, h4]
  · intro h1 h2 h3 h4
    simp [Blockchain.createTransaction, h1, h2, h3, h4]

/-- A ledger with two registered accounts `alice ↦ 0xa` and `bob ↦ 0xb`,
for exercising every branch of `createTransaction`. -/
def c4Ledger : Blockchain :=
  ((Blockchain.init c1Crypto "uuid-g" 3 0).createAccount "alice" true "0xa" 5
    |>.2).createAccount "bob" true "0xb" 6 |>.2

/-- A transaction with a missing sender. -/
def c4txMissing : Transaction :=
  Transaction.make none (some "bob") 5 "transfer" "t1" 10

/-- A transaction from an unregistered name. -/
def c4txUnknown : Transaction :=
  Transaction.make (some "nobody") (some "bob") 5 "transfer" "t2" 10

/-- A transfer exceeding `alice`'s zero balance. -/
def c4txPoor : Transaction :=
  Transaction.make (some "alice") (some "bob") 5 "transfer" "t3" 10

/-- A zero-amount transfer, within `alice`'s zero balance. -/
def c4txOk : Transaction :=
  Transaction.make (some "alice") (some "bob") 0 "transfer" "t4" 10

set_option maxRecDepth 100000 in
/-- Witness for C4: all four branches exercised on concrete inputs. -/
theorem C4_submitTransaction_witness :
    c4Ledger.createTransaction c1Crypto c4txMissing = .error .missingAddress ∧
    c4Ledger.createTransaction c1Crypto c4txUnknown = .error .unknownAccount ∧
    c4Ledger.createTransaction c1Crypto c4txPoor = .error .insufficientBalance ∧
    c4Ledger.createTransaction c1Crypto c4txOk = .ok { c4Ledger with
      pendingTransactions := c4Ledger.pendingTransactions ++
        [Transaction.signTransaction c1Crypto
          { c4txOk with
              «from» := some (c4Ledger.resolveAddress (jsStr c4txOk.«from»)),
              «to» := some (c4Ledger.resolveAddress (jsStr c4txOk.«to»)) }
          (c4Ledger.resolveAddress (jsStr c4txOk.«from»))] } := by
  refine ⟨?_, ?_, ?_, ?_⟩
  · exact (C4_submitTransaction_characterization c1Crypto c4Ledger
      c4txMissing).1 (by decide)
  · exact (C4_submitTransaction_characterization c1Crypto c4Ledger
      c4txUnknown).2.1 (by decide) (Or.inl (by decide))
  · exact (C4_submitTransaction_characterization c1Crypto c4Ledger
      c4txPoor).2.2.1 (by decide) (by decide) (by decide) (by decide)
  · exact (C4_submitTransaction_characterization c1Crypto c4Ledger
      c4txOk).2.2.2 (by decide) (by decide) (by decide) (by decide)

/-! ### Claim C5: difficulty retargeting -/

/-- The recorded (truthy) mining durations of a block window. -/
def windowDurations (window : List Block) : List Int :=
  window.filterMap fun b =>
    if jsTruthyTime b.miningTime then b.miningTime else none

/-- The retarget rule in the spec's vocabulary, *amended* with the guard
the implementation actually has: besides the short-chain no-op and the
no-recorded-durations no-op, the retarget is also a no-op whenever the
earliest block of the window (`chain[length - retargetWindow]`) or the
latest block lacks a truthy recorded duration. -/
def adjustDifficultySpec (bc : Blockchain) : Blockchain :=
  if bc.chain.length < bc.difficultyAdjustmentInterval then bc
  else if ¬ jsTruthyTime (bc.chain.getD
        (bc.chain.length - bc.difficultyAdjustmentInterval) dummyBlock).miningTime ||
      ¬ jsTruthyTime (bc.chain.getD (bc.chain.length - 1) dummyBlock).miningTime
  then bc
  else
    let durations := windowDurations
      (bc.chain.drop (bc.chain.length - bc.difficultyAdjustmentInterval))
    if durations.length = 0 then bc
    else
      let meanDuration : ℚ := (durations.sum : ℚ) / (durations.length : ℚ)
      let r : ℚ := meanDuration / (bc.targetBlockTime : ℚ)
      if r < 1/2 then { bc with difficulty := bc.difficulty + 1 }
      else if r > 2 then { bc with difficulty := max 1 (bc.difficulty - 1) }
      else bc

/-- Dropping a block without a truthy recorded duration from the head
leaves the duration list unchanged. -/
theorem windowDurations_cons_false (b : Block) (bs : List Block)
    (h : jsTruthyTime b.miningTime = false) :
    windowDurations (b :: bs) = windowDurations bs := by
  simp [windowDurations, List.filterMap_cons, h]

/-- A block with a truthy recorded duration contributes it at the head of
the duration list. -/
theorem windowDurations_cons_true (b : Block) (bs : List Block) (mt : Int)
    (hb : b.miningTime = some mt) (h : jsTruthyTime b.miningTime = true) :
    windowDurations (b :: bs) = mt :: windowDurations bs := by
  rw [hb] at h
  simp [windowDurations, List.filterMap_cons, hb, h]

/-- The accumulation loop of `adjustDifficulty` computes exactly the sum
and the count of the truthy recorded durations. -/
theorem timeAcc_foldl (l : List Block) (t : Int) (c : Nat) :
    l.foldl
      (fun p b =>
        if jsTruthyTime b.miningTime then (p.1 + b.miningTime.getD 0, p.2 + 1)
        else p)
      (t, c)
    = (t + (windowDurations l).sum, c + (windowDurations l).length) := by
  induction l generalizing t c with
  | nil => simp [windowDurations]
  | cons b bs ih =>
    rcases h : jsTruthyTime b.miningTime with _ | _
    · rw [List.foldl_cons, windowDurations_cons_false b bs h]
      simp only [h, Bool.false_eq_true, if_false]
      exact ih t c
    · rcases hb : b.miningTime with _ | mt
      · rw [hb] at h
        exact absurd h (by simp [jsTruthyTime])
      · rw [List.foldl_cons, windowDurations_cons_true b bs mt hb h]
        rw [hb] at h
        simp only [hb, h, if_true, Option.getD_some]
        rw [ih (t + mt) (c + 1), Prod.mk.injEq]
        refine ⟨by simp [List.sum_cons]; ring, by simp [List.length_cons]; omega⟩

/-- C5 (amended): `adjustDifficulty()` agrees everywhere with the amended
spec-side rule `adjustDifficultySpec`: mean of the truthy recorded
durations over the most recent `retargetWindow` blocks, `+1` difficulty
when the mean is below half the target, `-1` floored at `1` when above
twice the target, and a no-op for short chains, for windows with no
recorded durations, *and* whenever the window's first block or the chain
tip lacks a truthy duration. -/
theorem C5_adjustDifficulty_characterization (bc : Blockchain) :
    bc.adjustDifficulty = adjustDifficultySpec bc := by
  unfold Blockchain.adjustDifficulty adjustDifficultySpec timeAcc
  simp only [timeAcc_foldl, zero_add, Nat.zero_add]

/-- A block with the given optional recorded duration; the remaining
fields are arbitrary. -/
def c5blk (mt : Option Int) : Block :=
  { timestamp := 0, transactions := [], previousHash := "", hash := "",
    nonce := 0, miner := none, reward := 0, miningTime := mt,
    hashRate := none }

/-- A ledger whose chain holds exactly `retargetWindow = 5` blocks: the
genesis block (no recorded duration, as always) followed by four blocks
that each recorded `1000` ms against a `10000` ms target. -/
def c5Ledger : Blockchain :=
  { Blockchain.init c1Crypto "uuid-g" 3 0 with
      chain := [c5blk none, c5blk (some 1000), c5blk (some 1000),
                c5blk (some 1000), c5blk (some 1000)] }

/-- C5 counterexample: this chain has `retargetWindow` blocks, some of
them carry recorded durations, and the mean recorded duration over the
window (skipping the one block that lacks one) is a tenth of the target,
so the claim requires `difficulty` to increase by exactly 1 — but
`adjustDifficulty()` leaves it unchanged, because the *first* block of
the window (the genesis block) has no recorded duration and the
implementation's early guard `!adjustmentBlock.miningTime` fires. -/
theorem C5_retarget_skips_window_with_durationless_boundary :
    c5Ledger.chain.length = c5Ledger.difficultyAdjustmentInterval ∧
    (windowDurations (c5Ledger.chain.drop
        (c5Ledger.chain.length - c5Ledger.difficultyAdjustmentInterval))).length
      = 4 ∧
    (windowDurations (c5Ledger.chain.drop
        (c5Ledger.chain.length - c5Ledger.difficultyAdjustmentInterval))).sum
      = 4000 ∧
    c5Ledger.targetBlockTime = 10000 ∧
    (((4000 : ℚ) / 4) / 10000) < 1/2 ∧
    (Blockchain.adjustDifficulty c5Ledger).difficulty = c5Ledger.difficulty := by
  refine ⟨rfl, rfl, rfl, rfl, by norm_num, rfl⟩

/-! ### Claim C6: signature verification -/

/-- C6: full behaviour of `isValid()`. A system transaction
(`from === null`) is always valid; a non-system transaction with an
absent or empty signature throws `MissingSignature`; a signed non-system
transaction is valid exactly when the stored signature equals the
keyed MAC of the transaction's fingerprint with the *sender address* as
the key. Consequently `signTransaction(from)` followed by `isValid()`
yields `true` (given only that the MAC primitive never produces the empty
string, as a real HMAC-SHA256 hex digest never does): any holder of the
public address can produce a valid signature. -/
theorem C6_isValid_characterization (C : Crypto) (tx : Transaction)
    (a s : String) :
    (tx.«from» = none → tx.isValid C = .ok true) ∧
    (tx.«from» = some a → jsFalsyStr tx.signature = true →
      tx.isValid C = .error .missingSignature) ∧
    (tx.«from» = some a → tx.signature = some s → s ≠ "" →
      tx.isValid C = .ok (s = C.hmac (tx.calculateHash C) a)) ∧
    (tx.«from» = some a → (∀ m k, C.hmac m k ≠ "") →
      (tx.signTransaction C a).isValid C = .ok true) := by
  refine ⟨?_, ?_, ?_, ?_⟩
  · intro h
    simp [Transaction.isValid, h]
  · intro h hsig
    rcases hs : tx.signature with _ | s0
    · simp [Transaction.isValid, h, hs]
    · rw [hs] at hsig
      simp only [jsFalsyStr, decide_eq_true_eq] at hsig
      simp [Transaction.isValid, h, hs, hsig]
  · intro h hs hne
    simp [Transaction.isValid, h, hs, hne]
  · intro h hmac_ne
    have hhash : (tx.signTransaction C a).calculateHash C = tx.calculateHash C := by
      simp [Transaction.signTransaction, Transaction.calculateHash]
    simp [Transaction.isValid, Transaction.signTransaction, h, hhash,
      hmac_ne (tx.calculateHash C) a]
    congr 1
    simp [Transaction.calculateHash, h]

/-- A system transaction. -/
def c6txSystem : Transaction :=
  Transaction.make none (some "genesis") 7 "genesis" "t-sys" 1

/-- An unsigned non-system transaction. -/
def c6txUnsigned : Transaction :=
  Transaction.make (some "0xa") (some "0xb") 7 "transfer" "t-uns" 2

/-- A non-system transaction carrying a wrong (non-MAC) signature. -/
def c6txBadSig : Transaction :=
  { c6txUnsigned with signature := some "zz" }

/-- Witness for C6: the four branches at concrete transactions under the
concrete MAC `hmac m k = "m" ++ k ++ m` (never empty). -/
theorem C6_isValid_witness :
    c6txSystem.isValid c1Crypto = .ok true ∧
    c6txUnsigned.isValid c1Crypto = .error .missingSignature ∧
    c6txBadSig.isValid c1Crypto = .ok false ∧
    (c6txUnsigned.signTransaction c1Crypto "0xa").isValid c1Crypto = .ok true := by
  have hne : ∀ m k, c1Crypto.hmac m k ≠ "" := by
    intro m k hmk
    have h1 : ("m" ++ k ++ m).length = ("" : String).length := by
      show (c1Crypto.hmac m k).length = ("" : String).length
      rw [hmk]
    have h2 : ("m" : String).length = 1 := rfl
    have h3 : ("" : String).length = 0 := rfl
    rw [String.length_append, String.length_append] at h1
    omega
  refine ⟨?_, ?_, ?_, ?_⟩
  · exact (C6_isValid_characterization c1Crypto c6txSystem "" "").1 rfl
  · exact (C6_isValid_characterization c1Crypto c6txUnsigned "0xa" "").2.1
      rfl (by decide)
  · have h := (C6_isValid_characterization c1Crypto c6txBadSig "0xa" "zz").2.2.1
      rfl rfl (by decide)
    rw [h]
    simp only [Except.ok.injEq, decide_eq_false_iff_not]
    decide
  · exact (C6_isValid_characterization c1Crypto c6txUnsigned "0xa" "").2.2.2
      rfl hne

/-! ### Claim C7: hash linkage is preserved by every mutator -/

/-- The hash-linkage invariant: for every `i > 0`,
`chain[i].previousHash == chain[i-1].hash`. -/
def hashLinked (c : List Block) : Prop :=
  ∀ i, (h : i + 1 < c.length) →
    (c.get ⟨i + 1, h⟩).previousHash = (c.get ⟨i, Nat.lt_of_succ_lt h⟩).hash

/-- The index form of the invariant is the pairwise chain condition. -/
theorem hashLinked_iff_chain (c : List Block) :
    hashLinked c ↔ List.Chain' (fun a b => b.previousHash = a.hash) c := by
  rw [List.chain'_iff_get]
  constructor
  · intro h i hi
    exact h i (by omega)
  · intro h i hi
    exact h i (by omega)

/-- Appending a block whose `previousHash` is the last block's `hash`
preserves the linkage invariant. -/
theorem hashLinked_append (c : List Block) (x : Block) (h : hashLinked c)
    (hx : ∀ lastB ∈ c.getLast?, x.previousHash = lastB.hash) :
    hashLinked (c ++ [x]) := by
  rw [hashLinked_iff_chain] at *
  rw [List.chain'_append]
  refine ⟨h, List.chain'_singleton x, ?_⟩
  intro a ha b hb
  simp only [List.head?_cons, Option.mem_def, Option.some.injEq] at hb
  subst hb
  exact hx a ha

/-- Reading `chain[length - 1]` is reading the last element. -/
theorem getD_length_sub_one (l : List Block) (d : Block) (hne : l ≠ []) :
    l.getD (l.length - 1) d = l.getLast hne := by
  rw [List.getLast_eq_get, List.getD_eq_get]

/-- `adjustDifficulty` never touches the chain. -/
theorem adjustDifficulty_chain (bc : Blockchain) :
    bc.adjustDifficulty.chain = bc.chain := by
  unfold Blockchain.adjustDifficulty
  repeat' first | rfl | split | simp only []

/-- `adjustDifficulty` never touches the pending pool. -/
theorem adjustDifficulty_pending (bc : Blockchain) :
    bc.adjustDifficulty.pendingTransactions = bc.pendingTransactions := by
  unfold Blockchain.adjustDifficulty
  repeat' first | rfl | split | simp only []

/-- The mining loop only rewrites `nonce` and `hash`; in particular the
`previousHash` of its result is that of its input. -/
theorem mineLoop_previousHash (C : Crypto) (fuel d : Nat) (b b' : Block)
    (h : mineLoop C fuel d b = some b') : b'.previousHash = b.previousHash := by
  induction fuel generalizing b with
  | zero => simp [mineLoop] at h
  | succ n ih =>
    rw [mineLoop] at h
    split at h
    · injection h with h
      rw [← h]
    · exact ih (b.stepNonce C) h

/-- `mineBlock` preserves `previousHash`. -/
theorem mineBlock_previousHash (C : Crypto) (fuel d : Nat) (addr : String)
    (b b' : Block) (h : Block.mineBlock C fuel d addr b = some b') :
    b'.previousHash = b.previousHash := by
  unfold Block.mineBlock at h
  rcases hm : mineLoop C fuel d b with _ | m
  · rw [hm] at h
    simp at h
  · rw [hm] at h
    rw [Option.map_some'] at h
    injection h with h
    rw [← h]
    exact mineLoop_previousHash C fuel d b m hm

/-- A successful `createTransaction` leaves the chain untouched. -/
theorem createTransaction_chain (C : Crypto) (bc : Blockchain)
    (tx : Transaction) (bc' : Blockchain)
    (h : bc.createTransaction C tx = .ok bc') : bc'.chain = bc.chain := by
  simp only [Blockchain.createTransaction] at h
  split at h
  · simp at h
  · split at h
    · simp at h
    · split at h
      · simp at h
      · rw [Except.ok.injEq] at h
        rw [← h]

/-- A successful `useFaucet` leaves the chain untouched. -/
theorem useFaucet_chain (now : Int) (freshTxId : String) (freshTxNow : Int)
    (bc : Blockchain) (x : String) (bc' : Blockchain) (r : FaucetOk)
    (h : Blockchain.useFaucet now freshTxId freshTxNow bc x = .ok (bc', r)) :
    bc'.chain = bc.chain := by
  simp only [Blockchain.useFaucet] at h
  split at h
  · simp at h
  · split at h
    · simp at h
    · rw [Except.ok.injEq, Prod.mk.injEq] at h
      rw [← h.1]

/-- A successful `minePendingTransactions` appends exactly one block,
whose `previousHash` is the hash of the previous chain tip. -/
theorem minePendingTransactions_chain (C : Crypto) (fuel : Nat)
    (now dur : Int) (bc : Blockchain) (addr : String) (bc' : Blockchain)
    (h : Blockchain.minePendingTransactions C fuel now dur bc addr = .ok bc') :
    ∃ m : Block, bc'.chain = bc.chain ++ [m] ∧
      m.previousHash = (bc.chain.getD (bc.chain.length - 1) dummyBlock).hash := by
  simp only [Blockchain.minePendingTransactions] at h
  split at h
  · simp at h
  · split at h
    · simp at h
    · rename_i mined heq
      rw [Except.ok.injEq] at h
      subst h
      refine ⟨{ mined with
                miningTime := some dur,
                hashRate := some ((mined.nonce : ℚ) / ((dur : ℚ) / 1000)) },
              ?_, ?_⟩
      · simp [adjustDifficulty_chain]
      · show mined.previousHash = _
        have h1 := mineBlock_previousHash C fuel (bc.adjustDifficulty).difficulty
          (bc.resolveAddress addr) _ mined heq
        simp only [Block.make] at h1
        rw [h1]
        simp [Blockchain.getLatestBlock, adjustDifficulty_chain]

/-- C7: every ledger-mutating operation — transaction submission, faucet
claim, and mining — preserves the hash-linkage invariant
`chain[i].previousHash == chain[i-1].hash` (for all `i > 0`). Submission
and faucet claims never touch the chain; mining appends one block whose
`previousHash` is the previous tip's hash. -/
theorem C7_mutators_preserve_hashLinked (C : Crypto) :
    (∀ (bc : Blockchain) (tx : Transaction) (bc' : Blockchain),
      bc.createTransaction C tx = .ok bc' →
      hashLinked bc.chain → hashLinked bc'.chain) ∧
    (∀ (now : Int) (freshTxId : String) (freshTxNow : Int) (bc : Blockchain)
      (x : String) (bc' : Blockchain) (r : FaucetOk),
      Blockchain.useFaucet now freshTxId freshTxNow bc x = .ok (bc', r) →
      hashLinked bc.chain → hashLinked bc'.chain) ∧
    (∀ (fuel : Nat) (now dur : Int) (bc : Blockchain) (addr : String)
      (bc' : Blockchain),
      Blockchain.minePendingTransactions C fuel now dur bc addr = .ok bc' →
      hashLinked bc.chain → hashLinked bc'.chain) := by
  refine ⟨?_, ?_, ?_⟩
  · intro bc tx bc' h hl
    rwa [createTransaction_chain C bc tx bc' h]
  · intro now i0 t0 bc x bc' r h hl
    rwa [useFaucet_chain now i0 t0 bc x bc' r h]
  · intro fuel now dur bc addr bc' h hl
    obtain ⟨m, hchain, hprev⟩ := minePendingTransactions_chain C fuel now dur
      bc addr bc' h
    rw [hchain]
    apply hashLinked_append _ _ hl
    intro lastB hlast
    have hne : bc.chain ≠ [] := by
      intro hnil
      rw [hnil] at hlast
      simp at hlast
    rw [hprev, getD_length_sub_one bc.chain dummyBlock hne]
    rw [List.getLast?_eq_getLast bc.chain hne] at hlast
    simp only [Option.mem_def, Option.some.injEq] at hlast
    rw [hlast]

/-- A crypto instantiation whose digest is the constant `"00"`, making
every proof-of-work search at difficulty 2 succeed immediately. -/
def c7Crypto : Crypto :=
  { sha := fun _ => "00", hmac := fun m k => "m" ++ k ++ m }

/-- A fresh ledger with a registered miner account `alice ↦ 0xa`. -/
def c7Ledger : Blockchain :=
  (Blockchain.init c7Crypto "uuid-g" 3 0).createAccount "alice" true "0xa" 5
    |>.2

/-- The result of mining the (empty) pending pool as `alice`. -/
def c7Res : Except Err Blockchain :=
  Blockchain.minePendingTransactions c7Crypto 5 100 7 c7Ledger "alice"

set_option maxRecDepth 100000 in
/-- Witness for C7: a concrete successful mining step on a concrete
linked ledger yields a linked chain. -/
theorem C7_hashLinked_witness :
    hashLinked ((c7Res.toOption.getD c7Ledger).chain) := by
  apply (C7_mutators_preserve_hashLinked c7Crypto).2.2 5 100 7 c7Ledger
    "alice" (c7Res.toOption.getD c7Ledger)
  · rfl
  · intro i hi
    have h1 : c7Ledger.chain.length = 1 := rfl
    omega

/-! ### Claim C8: starting the auto-mining scheduler -/

/-- An empty scheduler configuration (all fields defaulted). -/
def c8Cfg : AMConfig :=
  { autoMineInterval := none, minTransactionsToMine := none,
    maxBlockTime := none }

/-- A freshly constructed ledger: no miners registered, scheduler
stopped. -/
def c8Fresh : Blockchain := Blockchain.init c1Crypto "uuid-g" 3 0

/-- C8 counterexample: with **no registered miners** (and the scheduler
stopped), `startAutoMining(config)` does *not* fail — it returns a
success result reporting zero miners and switches the scheduler on. The
effective (second) definition of `startAutoMining` in the class body has
no miner-registration check. -/
theorem C8_start_succeeds_without_miners :
    c8Fresh.miners = [] ∧
    c8Fresh.autoMining = false ∧
    (c8Fresh.startAutoMining c8Cfg).1 =
      .ok { autoMineInterval := 10000, minTransactionsToMine := 1,
            maxBlockTime := 30000, totalMiners := 0 } ∧
    (c8Fresh.startAutoMining c8Cfg).2.autoMining = true := by
  refine ⟨rfl, rfl, rfl, rfl⟩

/-- C8 (amended): `startAutoMining(config)` fails only when the scheduler
is already running — returning an unsuccessful result and leaving the
whole state (configuration included) unchanged, though the scheduler
stays Running, not Stopped. Otherwise it succeeds *regardless of whether
any miners are registered*: it stores the check interval, the
transaction-count trigger threshold and the maximum inter-block interval
from `config` (with `||`-defaults for absent or falsy fields) and
transitions to Running. -/
theorem C8_startAutoMining_characterization (bc : Blockchain)
    (config : AMConfig) :
    (bc.autoMining = true →
      bc.startAutoMining config =
        (.failure "Auto mining is already running", bc)) ∧
    (bc.autoMining = false →
      bc.startAutoMining config =
        (.ok { autoMineInterval := jsOrInt config.autoMineInterval 10000,
               minTransactionsToMine := jsOrInt config.minTransactionsToMine 1,
               maxBlockTime := jsOrInt config.maxBlockTime 30000,
               totalMiners := bc.miners.length },
         { bc with
           autoMineInterval := some (jsOrInt config.autoMineInterval 10000),
           minTransactionsToMine := jsOrInt config.minTransactionsToMine 1,
           maxBlockTime := jsOrInt config.maxBlockTime 30000,
           autoMining := true })) := by
  constructor
  · intro h
    simp [Blockchain.startAutoMining, h]
  · intro h
    simp [Blockchain.startAutoMining, h]

/-- The fresh ledger with the scheduler already running. -/
def c8Running : Blockchain := (c8Fresh.startAutoMining c8Cfg).2

/-- Witness for C8: both branches at concrete states. -/
theorem C8_startAutoMining_witness :
    c8Running.startAutoMining c8Cfg =
      (.failure "Auto mining is already running", c8Running) ∧
    c8Fresh.startAutoMining c8Cfg =
      (.ok { autoMineInterval := 10000, minTransactionsToMine := 1,
             maxBlockTime := 30000, totalMiners := 0 },
       { c8Fresh with autoMineInterval := some 10000,
                      minTransactionsToMine := 1,
                      maxBlockTime := 30000,
                      autoMining := true }) := by
  constructor
  · exact (C8_startAutoMining_characterization c8Running c8Cfg).1 rfl
  · exact (C8_startAutoMining_characterization c8Fresh c8Cfg).2 rfl

/-! ### Claim C9: balance checks ignore the pending pool -/

/-- Fresh ledger for the double-spend scenario. -/
def c9L0 : Blockchain := Blockchain.init c7Crypto "uuid-g" 3 0

/-- Register `alice ↦ 0xa`. -/
def c9L1 : Blockchain := (c9L0.createAccount "alice" true "0xa" 5).2

/-- Register `bob ↦ 0xb`. -/
def c9L2 : Blockchain := (c9L1.createAccount "bob" true "0xb" 6).2

/-- Mine the empty pool as `alice`: her block reward makes her
chain-derived balance 10. -/
def c9Mine1 : Except Err Blockchain :=
  Blockchain.minePendingTransactions c7Crypto 5 100 7 c9L2 "alice"

/-- The ledger after the first mining step. -/
def c9L3 : Blockchain := c9Mine1.toOption.getD c9L2

/-- First transfer of `alice`'s entire balance to `bob`. -/
def c9tx1 : Transaction :=
  Transaction.make (some "alice") (some "bob") 10 "transfer" "t1" 110

/-- Second transfer of `alice`'s entire balance to `bob`. -/
def c9tx2 : Transaction :=
  Transaction.make (some "alice") (some "bob") 10 "transfer" "t2" 120

/-- First submission. -/
def c9Sub1 : Except Err Blockchain :=
  Blockchain.createTransaction c7Crypto c9L3 c9tx1

/-- The ledger after the first submission. -/
def c9L4 : Blockchain := c9Sub1.toOption.getD c9L3

/-- Second submission of the same amount from the same sender. -/
def c9Sub2 : Except Err Blockchain :=
  Blockchain.createTransaction c7Crypto c9L4 c9tx2

/-- The ledger after the second submission. -/
def c9L5 : Blockchain := c9Sub2.toOption.getD c9L4

/-- Mine the pool (both transfers) as `bob`. -/
def c9Mine2 : Except Err Blockchain :=
  Blockchain.minePendingTransactions c7Crypto 5 200 7 c9L5 "bob"

/-- The final ledger. -/
def c9L6 : Blockchain := c9Mine2.toOption.getD c9L5

set_option maxRecDepth 1000000 in
/-- C9: `createTransaction` checks the sender's balance only against the
finalized chain, ignoring the pending pool. Concretely: `alice` has a
chain-derived balance of 10; two submissions of 10 from her are **both**
accepted (the chain-derived balance is still 10 when the second is
checked, despite the pending debit); after mining, her derived balance is
`-10` — negative. -/
theorem C9_pending_pool_ignored_negative_balance :
    c9Mine1 = .ok c9L3 ∧
    c9L3.getAccountBalance "alice" = 10 ∧
    c9Sub1 = .ok c9L4 ∧
    c9L4.getAccountBalance "alice" = 10 ∧
    c9L4.pendingTransactions.length = 1 ∧
    c9Sub2 = .ok c9L5 ∧
    c9L5.pendingTransactions.length = 2 ∧
    c9Mine2 = .ok c9L6 ∧
    c9L6.getAccountBalance "alice" = -10 := by
  refine ⟨rfl, rfl, rfl, rfl, rfl, rfl, rfl, rfl, rfl⟩

/-! ### Claim C10: account creation and duplicates -/

/-- A fresh ledger with one account `alice ↦ 0xa1`. -/
def c10L1 : Blockchain :=
  ((Blockchain.init c1Crypto "uuid-g" 3 0).createAccount "alice" true "0xa1" 5).2

/-- C10 counterexample: with an account holding the alias `"alice"`
already registered, creating *another* account with the same alias
succeeds (a fresh random address is generated, only the address key is
checked), leaving **two** accounts that both carry the alias `"alice"` —
the collision is silently accepted, not rejected. -/
theorem C10_duplicate_alias_accepted :
    (c10L1.findAccount "alice").isSome = true ∧
    (c10L1.createAccount "alice" true "0xa2" 6).1.success = true ∧
    (c10L1.createAccount "alice" true "0xa2" 6).2.accounts.length = 2 ∧
    ((c10L1.createAccount "alice" true "0xa2" 6).2.accounts.map
      Account.«alias») = [some "alice", some "alice"] := by
  refine ⟨rfl, rfl, rfl, rfl⟩

/-- C10 (amended): `createAccount` rejects only duplicate *addresses*:
creating an account under an already-registered literal address fails
with `Account already exists` and leaves the account directory unchanged.
Creation by alias never checks for alias collisions — whenever the
freshly generated address is new, it succeeds and appends a further
account with that alias, even if the alias is already held by a
registered account. -/
theorem C10_createAccount_characterization (bc : Blockchain)
    (a gen addr : String) (now : Int) :
    (bc.hasAccount addr = true →
      bc.createAccount addr false gen now =
        ({ success := false, address := none, «alias» := none,
           error := some "Account already exists" }, bc)) ∧
    (bc.hasAccount gen = false →
      bc.createAccount a true gen now =
        ({ success := true, address := some gen, «alias» := some a,
           error := none },
         { bc with accounts := bc.accounts ++
            [{ address := gen, «alias» := some a, balance := 0,
               transactions := [], createdAt := now }] })) := by
  constructor
  · intro h
    simp [Blockchain.createAccount, h]
  · intro h
    simp [Blockchain.createAccount, h]

/-- Witness for C10: both branches at concrete inputs — rejection of the
duplicate address `0xa1`, and acceptance of a colliding alias under the
fresh address `0xa2`. -/
theorem C10_createAccount_witness :
    c10L1.createAccount "0xa1" false "" 7 =
      ({ success := false, address := none, «alias» := none,
         error := some "Account already exists" }, c10L1) ∧
    c10L1.createAccount "alice" true "0xa2" 6 =
      ({ success := true, address := some "0xa2", «alias» := some "alice",
         error := none },
       { c10L1 with accounts := c10L1.accounts ++
          [{ address := "0xa2", «alias» := some "alice", balance := 0,
             transactions := [], createdAt := 6 }] }) := by
  constructor
  · exact (C10_createAccount_characterization c10L1 "" "" "0xa1" 7).1 (by decide)
  · exact (C10_createAccount_characterization c10L1 "alice" "0xa2" "" 6).2
      (by decide)
